import Mathlib

/-!
Shallow embedding of the X Investment backend (src/server.js): the account
ledger (deposit / withdraw), the payment creation, delayed-settlement and
cancellation handlers, and the persistence step, together with proofs about
them.  JavaScript numbers are modelled as exact rationals extended with the
special values NaN, Infinity and -Infinity; request-body values are modelled
as JSON numbers or strings.  Randomly generated identifiers (nanoid) and
timestamps are passed in as parameters / omitted, and the write-to-disk step
is modelled by a Boolean flag saying whether the synchronous save succeeds.
-/

namespace XInvestment

/-- A JavaScript number: NaN, ±Infinity, or a finite value (modelled as an
exact rational). -/
inductive JsNum where
  | nan : JsNum
  | inf : JsNum
  | ninf : JsNum
  | num (q : ℚ) : JsNum
deriving DecidableEq, Repr

namespace JsNum

/-- JavaScript `isNaN`. -/
def isNaN : JsNum → Bool
  | nan => true
  | _ => false

/-- Whether the number is finite. -/
def isFinite : JsNum → Bool
  | num _ => true
  | _ => false

/-- Truthiness of a JavaScript number: `0` and `NaN` are falsy. -/
def truthy : JsNum → Bool
  | num q => decide (q ≠ 0)
  | nan => false
  | _ => true

/-- JavaScript `+` on numbers. -/
def add : JsNum → JsNum → JsNum
  | nan, _ => nan
  | _, nan => nan
  | inf, ninf => nan
  | ninf, inf => nan
  | inf, _ => inf
  | _, inf => inf
  | ninf, _ => ninf
  | _, ninf => ninf
  | num a, num b => num (a + b)

/-- JavaScript unary `-` on numbers. -/
def neg : JsNum → JsNum
  | nan => nan
  | inf => ninf
  | ninf => inf
  | num q => num (-q)

/-- JavaScript `-` on numbers. -/
def sub (a b : JsNum) : JsNum := a.add b.neg

/-- JavaScript `*` on numbers. -/
def mul : JsNum → JsNum → JsNum
  | nan, _ => nan
  | _, nan => nan
  | inf, inf => inf
  | inf, ninf => ninf
  | ninf, inf => ninf
  | ninf, ninf => inf
  | inf, num q => if q = 0 then nan else if 0 < q then inf else ninf
  | num q, inf => if q = 0 then nan else if 0 < q then inf else ninf
  | ninf, num q => if q = 0 then nan else if 0 < q then ninf else inf
  | num q, ninf => if q = 0 then nan else if 0 < q then ninf else inf
  | num a, num b => num (a * b)

/-- JavaScript `/ 100` (the only division the handlers perform). -/
def div100 : JsNum → JsNum
  | nan => nan
  | inf => inf
  | ninf => ninf
  | num q => num (q / 100)

/-- JavaScript `Math.round`: round to the nearest integer, ties toward
positive infinity. -/
def jsRound : JsNum → JsNum
  | nan => nan
  | inf => inf
  | ninf => ninf
  | num q => num ((Int.floor (q + 1 / 2) : ℤ) : ℚ)

/-- JavaScript `<` on numbers (false whenever an operand is NaN). -/
def lt : JsNum → JsNum → Bool
  | nan, _ => false
  | _, nan => false
  | inf, _ => false
  | _, inf => true
  | ninf, ninf => false
  | ninf, _ => true
  | _, ninf => false
  | num a, num b => decide (a < b)

/-- JavaScript `<=` on numbers (false whenever an operand is NaN). -/
def le : JsNum → JsNum → Bool
  | nan, _ => false
  | _, nan => false
  | inf, inf => true
  | inf, _ => false
  | _, inf => true
  | ninf, _ => true
  | _, ninf => false
  | num a, num b => decide (a ≤ b)

/-- JavaScript `>` on numbers: `a > b` holds exactly when `b < a`. -/
def gt (a b : JsNum) : Bool := lt b a

end JsNum

/-- `v || 0` followed by `Number(...)`, as in `Number(user.balance || 0)`:
a falsy balance (0 or NaN) is replaced by 0. -/
def jsOr0 (b : JsNum) : JsNum := if b.truthy then b else .num 0

/-- A JSON value arriving in a request body, as far as the handlers look at
it: a number or a string. -/
inductive JsVal where
  | jnum (x : JsNum) : JsVal
  | jstr (s : String) : JsVal
deriving DecidableEq, Repr

/-- Split a character list at the first dot. -/
def splitDot : List Char → List Char × Option (List Char)
  | [] => ([], none)
  | c :: t =>
    if c = '.' then ([], some t)
    else
      let r := splitDot t
      (c :: r.1, r.2)

/-- Numeric value of a digit list (most significant first). -/
def digitsToNat (l : List Char) : ℕ :=
  l.foldl (fun a c => 10 * a + (c.toNat - 48)) 0

/-- Parse an optionally signed plain decimal literal (digits, optional dot,
digits, at least one digit overall). -/
def parseDec (cs : List Char) : Option ℚ :=
  let sr : ℚ × List Char :=
    match cs with
    | '-' :: t => (-1, t)
    | '+' :: t => (1, t)
    | t => (1, t)
  let ip := (splitDot sr.2).1
  match (splitDot sr.2).2 with
  | none =>
    if ip ≠ [] ∧ ip.all Char.isDigit then some (sr.1 * (digitsToNat ip : ℚ)) else none
  | some f =>
    if (ip ≠ [] ∨ f ≠ []) ∧ ip.all Char.isDigit ∧ f.all Char.isDigit then
      some (sr.1 * ((digitsToNat ip : ℚ) + (digitsToNat f : ℚ) / (10 : ℚ) ^ f.length))
    else none

/-- ECMAScript string-to-number conversion, restricted to the literals the
handlers' arguments use: the empty string is 0, `Infinity` forms convert to
the infinities, plain signed decimal literals to their value, and anything
else to NaN (whitespace trimming, exponents and hex literals are not
modelled). -/
def strToNum (s : String) : JsNum :=
  if s = "" then .num 0
  else if s = "Infinity" ∨ s = "+Infinity" then .inf
  else if s = "-Infinity" then .ninf
  else
    match parseDec s.toList with
    | some q => .num q
    | none => .nan

namespace JsVal

/-- JavaScript truthiness of a request-body value. -/
def truthy : JsVal → Bool
  | jnum x => x.truthy
  | jstr s => decide (s ≠ "")

/-- JavaScript `Number(...)` applied to a request-body value. -/
def toNumber : JsVal → JsNum
  | jnum x => x
  | jstr s => strToNum s

end JsVal

/-- Transaction type: `'deposit' | 'withdraw' | 'invest'`. -/
inductive TxType where
  | deposit : TxType
  | withdraw : TxType
  | invest : TxType
deriving DecidableEq, Repr

/-- The `meta` field of a transaction: a note for deposits/withdrawals, or
`{ principal, bonus }` for settlement credits. -/
inductive TxMeta where
  | note (s : String) : TxMeta
  | investMeta (principal bonus : JsNum) : TxMeta
deriving DecidableEq, Repr

/-- A ledger transaction.  The random `tx_`-prefixed nanoid identifier and
the `createdAt` timestamp carry no ledger information and are omitted. -/
structure Tx where
  type : TxType
  amount : JsNum
  meta : TxMeta
deriving DecidableEq, Repr

/-- A user record as stored in the `users` map.  The pbkdf2 salt/hash and
`createdAt` timestamp are outside the ledger core and omitted. -/
structure User where
  phone : String
  name : String
  balance : JsNum
  txs : List Tx
  picture : Option String
deriving DecidableEq, Repr

/-- Payment status strings `'PENDING' | 'SUCCESS' | 'FAILED' | 'CANCELLED'`. -/
inductive PayStatus where
  | PENDING : PayStatus
  | SUCCESS : PayStatus
  | FAILED : PayStatus
  | CANCELLED : PayStatus
deriving DecidableEq, Repr

/-- A payment record as stored in the `payments` map (`createdAt` omitted). -/
structure Payment where
  id : String
  phone : String
  payTo : String
  amount : JsNum
  status : PayStatus
deriving DecidableEq, Repr

/-- The in-memory server state: the `users` and `payments` maps. -/
structure ServerState where
  users : String → Option User
  payments : String → Option Payment

/-- Point update of a string-keyed map. -/
def upd {α : Type} (m : String → Option α) (k : String) (v : α) :
    String → Option α :=
  fun k' => if k' = k then some v else m k'

/-- Error responses of the handlers, one per distinct `error` string
(`storageUnavailable` stands for an exception thrown by the synchronous
save). -/
inductive Err where
  | missingFields : Err
  | accountExists : Err
  | accountNotFound : Err
  | paymentNotFound : Err
  | invalidAmount : Err
  | insufficientBalance : Err
  | cannotCancel : Err
  | storageUnavailable : Err
deriving DecidableEq, Repr

/-- `POST /api/signup` restricted to the ledger core: create the account
with balance 0 and no transactions (password hashing and token issuance are
out of scope).  `storageOk` says whether `saveAll` succeeds. -/
def signup (st : ServerState) (storageOk : Bool) (name phone password : String) :
    Except Err Unit × ServerState :=
  if name = "" ∨ phone = "" ∨ password = "" then (.error .missingFields, st)
  else
    match st.users phone with
    | some _ => (.error .accountExists, st)
    | none =>
      let user : User := ⟨phone, name, .num 0, [], none⟩
      let st' : ServerState := { st with users := upd st.users phone user }
      if storageOk then (.ok (), st') else (.error .storageUnavailable, st')

/-- `POST /api/deposit`: validate, then `user.balance = Number(user.balance
|| 0) + a`, push a `deposit` transaction, `saveAll()`.  The in-memory
mutation happens before the save is attempted, as in the source. -/
def deposit (st : ServerState) (storageOk : Bool) (phone : String)
    (amount : JsVal) : Except Err JsNum × ServerState :=
  if phone = "" ∨ amount.truthy = false then (.error .missingFields, st)
  else
    match st.users phone with
    | none => (.error .accountNotFound, st)
    | some user =>
      let a := amount.toNumber
      if a.isNaN = true ∨ a.le (.num 0) = true then (.error .invalidAmount, st)
      else
        let newBal := (jsOr0 user.balance).add a
        let tx : Tx := ⟨.deposit, a, .note "Manual deposit"⟩
        let user' : User := { user with balance := newBal, txs := user.txs ++ [tx] }
        let st' : ServerState := { st with users := upd st.users phone user' }
        if storageOk then (.ok newBal, st') else (.error .storageUnavailable, st')

/-- `POST /api/withdraw`: validate, reject `a > user.balance`, then
`user.balance = Number(user.balance || 0) - a`, push a `withdraw`
transaction, `saveAll()`. -/
def withdraw (st : ServerState) (storageOk : Bool) (phone : String)
    (amount : JsVal) : Except Err JsNum × ServerState :=
  if phone = "" ∨ amount.truthy = false then (.error .missingFields, st)
  else
    match st.users phone with
    | none => (.error .accountNotFound, st)
    | some user =>
      let a := amount.toNumber
      if a.isNaN = true ∨ a.le (.num 0) = true then (.error .invalidAmount, st)
      else if a.gt user.balance = true then (.error .insufficientBalance, st)
      else
        let newBal := (jsOr0 user.balance).sub a
        let tx : Tx := ⟨.withdraw, a, .note "Manual withdrawal"⟩
        let user' : User := { user with balance := newBal, txs := user.txs ++ [tx] }
        let st' : ServerState := { st with users := upd st.users phone user' }
        if storageOk then (.ok newBal, st') else (.error .storageUnavailable, st')

/-- `POST /api/payment/create`, synchronous part: validate (`isNaN(a) || a <
250`), store a PENDING payment under the fresh nanoid `pid`, `saveAll()`,
return the payment id.  The scheduled settlement callback is modelled
separately by `runSettlement`. -/
def createPayment (st : ServerState) (storageOk : Bool) (pid phone : String)
    (amount : JsVal) (payTo : String) : Except Err String × ServerState :=
  if phone = "" ∨ amount.truthy = false ∨ payTo = "" then (.error .missingFields, st)
  else
    match st.users phone with
    | none => (.error .accountNotFound, st)
    | some _ =>
      let a := amount.toNumber
      if a.isNaN = true ∨ a.lt (.num 250) = true then (.error .invalidAmount, st)
      else
        let p : Payment := ⟨pid, phone, payTo, a, .PENDING⟩
        let st' : ServerState := { st with payments := upd st.payments pid p }
        if storageOk then (.ok pid, st') else (.error .storageUnavailable, st')

/-- The `setTimeout` settlement callback of `/api/payment/create`, with the
drawn outcome `Math.random() < 0.85` passed in as `ok`.  On success it sets
the status to SUCCESS, computes `Math.round((a * 1.10) * 100) / 100`,
credits the captured user and pushes an `invest` transaction; on failure it
sets the status to FAILED.  The callback captures the payment and user
objects; since the maps never drop or replace entries, looking them up by id
is equivalent. -/
def runSettlement (st : ServerState) (ok : Bool) (pid : String) : ServerState :=
  match st.payments pid with
  | none => st
  | some p =>
    if ok then
      let p' : Payment := { p with status := .SUCCESS }
      let credited := ((p.amount.mul (.num (11 / 10))).mul (.num 100)).jsRound.div100
      match st.users p.phone with
      | none => { st with payments := upd st.payments pid p' }
      | some user =>
        let tx : Tx := ⟨.invest, credited, .investMeta p.amount (credited.sub p.amount)⟩
        let user' : User :=
          { user with balance := (jsOr0 user.balance).add credited,
                      txs := user.txs ++ [tx] }
        { users := upd st.users p.phone user', payments := upd st.payments pid p' }
    else
      { st with payments := upd st.payments pid { p with status := .FAILED } }

/-- `POST /api/payment/cancel/:id`: succeed only from PENDING, else
`cannot cancel`. -/
def cancelPayment (st : ServerState) (storageOk : Bool) (pid : String) :
    Except Err Unit × ServerState :=
  match st.payments pid with
  | none => (.error .paymentNotFound, st)
  | some p =>
    if p.status = .PENDING then
      let st' : ServerState :=
        { st with payments := upd st.payments pid { p with status := .CANCELLED } }
      if storageOk then (.ok (), st') else (.error .storageUnavailable, st')
    else (.error .cannotCancel, st)

/-- The signed ledger delta of one transaction: deposits and settlement
credits count positive, withdrawals negative. -/
def txDelta (t : Tx) : JsNum :=
  match t.type with
  | .withdraw => t.amount.neg
  | _ => t.amount

/-- Sum of the signed transaction deltas, in recorded order, starting
from 0, using JavaScript addition. -/
def txSum (l : List Tx) : JsNum :=
  l.foldl (fun acc t => acc.add (txDelta t)) (.num 0)

/-- One mutating operation of the core, for reasoning about operation
sequences (each runs with the save succeeding). -/
inductive Op where
  | signupOp (name phone password : String) : Op
  | dep (phone : String) (amount : JsVal) : Op
  | wd (phone : String) (amount : JsVal) : Op
  | createPay (pid phone : String) (amount : JsVal) (payTo : String) : Op
  | settle (pid : String) (ok : Bool) : Op
deriving DecidableEq

/-- Apply one operation to the state. -/
def runOp (st : ServerState) : Op → ServerState
  | .signupOp n p pw => (signup st true n p pw).2
  | .dep p v => (deposit st true p v).2
  | .wd p v => (withdraw st true p v).2
  | .createPay pid p v dest => (createPayment st true pid p v dest).2
  | .settle pid ok => runSettlement st ok pid

/-- Apply a sequence of operations from left to right. -/
def runOps (st : ServerState) (ops : List Op) : ServerState :=
  ops.foldl runOp st

/-- The state before any account exists. -/
def emptyState : ServerState := ⟨fun _ => none, fun _ => none⟩

/-- An operation is finite when any amount it supplies converts to a finite
number. -/
def opFinite : Op → Bool
  | .dep _ v => v.toNumber.isFinite
  | .wd _ v => v.toNumber.isFinite
  | .createPay _ _ v _ => v.toNumber.isFinite
  | _ => true

/-- Rounding to 2 decimal places with half-up rounding, as the spec words
the settlement credit (`round2`). -/
def round2HalfUp (q : ℚ) : ℚ := ((Int.floor (q * 100 + 1 / 2) : ℤ) : ℚ) / 100

/-- The ledger invariant for one account: the balance is a nonnegative
finite number and equals the signed sum of the recorded transactions. -/
def GoodUser (u : User) : Prop :=
  ∃ q : ℚ, 0 ≤ q ∧ u.balance = .num q ∧ txSum u.txs = .num q

/-- The invariant for one payment: its amount is a nonnegative finite
number. -/
def GoodPayment (p : Payment) : Prop :=
  ∃ q : ℚ, 0 ≤ q ∧ p.amount = .num q

/-- The global state invariant: every stored account and payment is good. -/
def GoodState (st : ServerState) : Prop :=
  (∀ ph u, st.users ph = some u → GoodUser u) ∧
  (∀ pid p, st.payments pid = some p → GoodPayment p)

/-- A state with one account `A` holding balance 0 and no transactions. -/
def stA : ServerState :=
  ⟨upd emptyState.users "A" ⟨"A", "n", .num 0, [], none⟩, emptyState.payments⟩

/-- A state with one account `A` holding balance 100 and no transactions. -/
def stB : ServerState :=
  ⟨upd emptyState.users "A" ⟨"A", "n", .num 100, [], none⟩, emptyState.payments⟩

/-- Account `A` with balance 0 and an already-CANCELLED payment `p1` of
amount 250. -/
def stCancelled : ServerState :=
  ⟨upd emptyState.users "A" ⟨"A", "n", .num 0, [], none⟩,
   upd emptyState.payments "p1" ⟨"p1", "A", "X", .num 250, .CANCELLED⟩⟩

/-- Account `A` with balance 0 and a PENDING payment `p1` of amount 1000. -/
def stPending : ServerState :=
  ⟨upd emptyState.users "A" ⟨"A", "n", .num 0, [], none⟩,
   upd emptyState.payments "p1" ⟨"p1", "A", "X", .num 1000, .PENDING⟩⟩

/-- Operation sequence exhibiting non-finite amounts: deposit Infinity,
withdraw Infinity, then deposit 5. -/
def cexOps : List Op :=
  [ .signupOp "n" "A" "pw",
    .dep "A" (.jstr "Infinity"),
    .wd "A" (.jstr "Infinity"),
    .dep "A" (.jstr "5") ]

/-- A small finite-amount operation sequence: signup, deposit 500,
withdraw 200. -/
def demoOps : List Op :=
  [ .signupOp "n" "A" "pw",
    .dep "A" (.jnum (.num 500)),
    .wd "A" (.jnum (.num 200)) ]

/-- The account record produced by `demoOps`. -/
def demoUser : User :=
  ⟨"A", "n", .num 300,
   [⟨.deposit, .num 500, .note "Manual deposit"⟩,
    ⟨.withdraw, .num 200, .note "Manual withdrawal"⟩], none⟩

/-! ### Helper lemmas -/

theorem jsOr0_num (q : ℚ) : jsOr0 (.num q) = .num q := by
  by_cases h : q = 0
  · subst h; rfl
  · simp [jsOr0, JsNum.truthy, h]

theorem txSum_append (l : List Tx) (t : Tx) :
    txSum (l ++ [t]) = (txSum l).add (txDelta t) := by
  simp [txSum, List.foldl_append]

theorem credited_eq (s : ℚ) :
    (((JsNum.num s).mul (.num (11 / 10))).mul (.num 100)).jsRound.div100
      = .num (round2HalfUp (s * (11 / 10))) := rfl

theorem round2HalfUp_nonneg (x : ℚ) (hx : 0 ≤ x) : 0 ≤ round2HalfUp x := by
  unfold round2HalfUp
  have h1 : (0 : ℤ) ≤ Int.floor (x * 100 + 1 / 2) := by
    rw [Int.le_floor]
    push_cast
    linarith
  have h2 : (0 : ℚ) ≤ ((Int.floor (x * 100 + 1 / 2) : ℤ) : ℚ) := by exact_mod_cast h1
  linarith

theorem goodState_empty : GoodState emptyState := by
  constructor <;> intro k x hx <;> exact Option.noConfusion hx

theorem finite_num (x : JsNum) (hf : x.isFinite = true) : ∃ r : ℚ, x = .num r := by
  cases x <;> simp [JsNum.isFinite] at hf ⊢

theorem signup_good (st : ServerState) (storageOk : Bool) (n ph pw : String)
    (h : GoodState st) : GoodState (signup st storageOk n ph pw).2 := by
  unfold signup
  split
  · exact h
  · split
    · exact h
    · dsimp only
      simp only [apply_ite Prod.snd, ite_self]
      refine ⟨?_, h.2⟩
      intro ph' u' hu'
      simp only [upd] at hu'
      by_cases hph : ph' = ph
      · rw [if_pos hph] at hu'
        cases hu'
        exact ⟨0, le_refl 0, rfl, rfl⟩
      · rw [if_neg hph] at hu'
        exact h.1 ph' u' hu'

theorem deposit_good (st : ServerState) (storageOk : Bool) (ph : String)
    (v : JsVal) (h : GoodState st) (hf : (v.toNumber).isFinite = true) :
    GoodState (deposit st storageOk ph v).2 := by
  obtain ⟨r, hv⟩ := finite_num _ hf
  unfold deposit
  split
  · exact h
  · split
    · exact h
    · rename_i user hu
      dsimp only
      split
      · exact h
      · rename_i hval
        rw [hv] at hval
        have hr : 0 < r := by
          by_contra hc
          push_neg at hc
          exact hval (Or.inr (by simpa [JsNum.le] using hc))
        obtain ⟨q, hq, hbq, hsq⟩ := h.1 _ user hu
        simp only [apply_ite Prod.snd, ite_self]
        refine ⟨?_, h.2⟩
        intro ph' u' hu'
        simp only [upd] at hu'
        by_cases hph : ph' = ph
        · rw [if_pos hph] at hu'
          cases hu'
          refine ⟨q + r, by linarith, ?_, ?_⟩
          · simp only [hv, hbq, jsOr0_num]
            rfl
          · simp only [txSum_append, hsq, hv, txDelta]
            rfl
        · rw [if_neg hph] at hu'
          exact h.1 ph' u' hu'

theorem withdraw_good (st : ServerState) (storageOk : Bool) (ph : String)
    (v : JsVal) (h : GoodState st) (hf : (v.toNumber).isFinite = true) :
    GoodState (withdraw st storageOk ph v).2 := by
  obtain ⟨r, hv⟩ := finite_num _ hf
  unfold withdraw
  split
  · exact h
  · split
    · exact h
    · rename_i user hu
      dsimp only
      split
      · exact h
      · split
        · exact h
        · rename_i hval hbal
          rw [hv] at hval hbal
          obtain ⟨q, hq, hbq, hsq⟩ := h.1 _ user hu
          rw [hbq] at hbal
          have hrq : r ≤ q := by
            by_contra hc
            push_neg at hc
            exact hbal (by simpa [JsNum.gt, JsNum.lt] using hc)
          simp only [apply_ite Prod.snd, ite_self]
          refine ⟨?_, h.2⟩
          intro ph' u' hu'
          simp only [upd] at hu'
          by_cases hph : ph' = ph
          · rw [if_pos hph] at hu'
            cases hu'
            refine ⟨q + -r, by linarith, ?_, ?_⟩
            · simp only [hv, hbq, jsOr0_num]
              rfl
            · simp only [txSum_append, hsq, hv, txDelta]
              rfl
          · rw [if_neg hph] at hu'
            exact h.1 ph' u' hu'

theorem createPayment_good (st : ServerState) (storageOk : Bool)
    (pid ph : String) (v : JsVal) (payTo : String) (h : GoodState st)
    (hf : (v.toNumber).isFinite = true) :
    GoodState (createPayment st storageOk pid ph v payTo).2 := by
  obtain ⟨r, hv⟩ := finite_num _ hf
  unfold createPayment
  split
  · exact h
  · split
    · exact h
    · dsimp only
      split
      · exact h
      · rename_i hval
        rw [hv] at hval
        have hr : (250 : ℚ) ≤ r := by
          by_contra hc
          push_neg at hc
          exact hval (Or.inr (by simpa [JsNum.lt] using hc))
        simp only [apply_ite Prod.snd, ite_self]
        refine ⟨h.1, ?_⟩
        intro pid' p' hp'
        simp only [upd] at hp'
        by_cases hpe : pid' = pid
        · rw [if_pos hpe] at hp'
          cases hp'
          exact ⟨r, by linarith, hv⟩
        · rw [if_neg hpe] at hp'
          exact h.2 pid' p' hp'

theorem settle_good (st : ServerState) (ok : Bool) (pid : String)
    (h : GoodState st) : GoodState (runSettlement st ok pid) := by
  unfold runSettlement
  split
  · exact h
  · rename_i p hp
    obtain ⟨s, hs, hams⟩ := h.2 _ p hp
    dsimp only
    split
    · split
      · refine ⟨h.1, ?_⟩
        intro pid' p' hp'
        simp only [upd] at hp'
        by_cases hpe : pid' = pid
        · rw [if_pos hpe] at hp'
          cases hp'
          exact ⟨s, hs, hams⟩
        · rw [if_neg hpe] at hp'
          exact h.2 pid' p' hp'
      · rename_i user hu
        obtain ⟨q, hq, hbq, hsq⟩ := h.1 _ user hu
        constructor
        · intro ph' u' hu'
          simp only [upd] at hu'
          by_cases hph : ph' = p.phone
          · rw [if_pos hph] at hu'
            cases hu'
            refine ⟨q + round2HalfUp (s * (11 / 10)), ?_, ?_, ?_⟩
            · have := round2HalfUp_nonneg (s * (11 / 10)) (by linarith)
              linarith
            · simp only [hams, credited_eq, hbq, jsOr0_num]
              rfl
            · simp only [txSum_append, hsq, hams, credited_eq, txDelta]
              rfl
          · rw [if_neg hph] at hu'
            exact h.1 ph' u' hu'
        · intro pid' p' hp'
          simp only [upd] at hp'
          by_cases hpe : pid' = pid
          · rw [if_pos hpe] at hp'
            cases hp'
            exact ⟨s, hs, hams⟩
          · rw [if_neg hpe] at hp'
            exact h.2 pid' p' hp'
    · refine ⟨h.1, ?_⟩
      intro pid' p' hp'
      simp only [upd] at hp'
      by_cases hpe : pid' = pid
      · rw [if_pos hpe] at hp'
        cases hp'
        exact ⟨s, hs, hams⟩
      · rw [if_neg hpe] at hp'
        exact h.2 pid' p' hp'

theorem runOp_good (st : ServerState) (op : Op) (h : GoodState st)
    (hf : opFinite op = true) : GoodState (runOp st op) := by
  cases op with
  | signupOp n p pw => exact signup_good st true n p pw h
  | dep p v => exact deposit_good st true p v h hf
  | wd p v => exact withdraw_good st true p v h hf
  | createPay pid p v dest => exact createPayment_good st true pid p v dest h hf
  | settle pid ok => exact settle_good st ok pid h

theorem runOps_good (ops : List Op) : ∀ st : ServerState, GoodState st →
    (∀ op ∈ ops, opFinite op = true) → GoodState (runOps st ops) := by
  induction ops with
  | nil => intro st h _; exact h
  | cons op rest ih =>
    intro st h hf
    exact ih (runOp st op) (runOp_good st op h (hf op (List.mem_cons_self op rest)))
      (fun op' h' => hf op' (List.mem_cons_of_mem op h'))

/-! ### Claim theorems -/

/-- C1: the claim says the delayed settlement task checks that the payment
is still PENDING before applying its outcome and is a no-op on an
already-cancelled payment.  The settlement callback in the source performs
no such check: fired with a success outcome on payment `p1`, which is
already CANCELLED, it overwrites the terminal status with SUCCESS and
credits 275 to account `A`, whose balance was 0. -/
theorem c1_settlement_ignores_cancelled :
    ((runSettlement stCancelled true "p1").payments "p1").map Payment.status
        = some .SUCCESS ∧
    ((runSettlement stCancelled true "p1").users "A").map User.balance
        = some (.num 275) ∧
    (stCancelled.payments "p1").map Payment.status = some .CANCELLED ∧
    (stCancelled.users "A").map User.balance = some (.num 0) := by
  norm_num [runSettlement, stCancelled, upd, emptyState, JsNum.mul, JsNum.jsRound,
    JsNum.div100, JsNum.add, jsOr0, JsNum.truthy, Int.floor_eq_iff]

/-- C2 counterexample: the claim as stated is false on the code.  The
validation (`isNaN(a) || a <= 0`) accepts `Infinity`, so after deposit
"Infinity", withdraw "Infinity" (allowed, since `Infinity > Infinity` is
false), then deposit "5", account `A` has balance 5 while the signed sum of
its recorded transactions is NaN — the balance no longer equals the sum of
transaction deltas. -/
theorem c2_counterexample :
    ((runOps emptyState cexOps).users "A").map (fun u => (u.balance, txSum u.txs))
      = some (.num 5, .nan) ∧ JsNum.num 5 ≠ JsNum.nan := by
  simp only [runOps, runOp, cexOps, List.foldl_cons, List.foldl_nil]
  simp [signup, deposit, withdraw, emptyState, upd,
    JsVal.truthy, JsVal.toNumber, strToNum, parseDec, splitDot, digitsToNat,
    JsNum.truthy, JsNum.isNaN, JsNum.le, JsNum.gt, JsNum.lt, JsNum.add,
    JsNum.sub, JsNum.neg, jsOr0, txSum, txDelta,
    (by norm_num : ¬(5 : ℚ) ≤ 0)]

/-- C2 (amended): starting from signup, any sequence of core operations
(signup, deposit, withdraw, create-payment, settlement) in which every
supplied amount converts to a finite number keeps, for every account, the
balance equal to the signed sum of the recorded transaction amounts
(deposit and invest positive, withdraw negative) and nonnegative — and
since this holds for every such sequence it holds after each prefix, i.e.
after each operation. -/
theorem c2_balance_conservation (ops : List Op)
    (hf : ∀ op ∈ ops, opFinite op = true) :
    ∀ ph u, (runOps emptyState ops).users ph = some u →
      ∃ q : ℚ, 0 ≤ q ∧ u.balance = .num q ∧ txSum u.txs = .num q :=
  fun ph u hu => (runOps_good ops emptyState goodState_empty hf).1 ph u hu

/-- Witness for C2: the finite sequence signup, deposit 500, withdraw 200
yields account `A` with balance 300 = sum of its transaction deltas. -/
theorem c2_witness :
    ∃ q : ℚ, 0 ≤ q ∧ demoUser.balance = .num q ∧ txSum demoUser.txs = .num q :=
  c2_balance_conservation demoOps (by decide) "A" demoUser (by
    simp only [runOps, runOp, demoOps, List.foldl_cons, List.foldl_nil]
    simp [signup, deposit, withdraw, emptyState, upd, demoUser,
      JsVal.truthy, JsVal.toNumber, JsNum.truthy, JsNum.isNaN, JsNum.le,
      JsNum.gt, JsNum.lt, JsNum.add, JsNum.sub, JsNum.neg, jsOr0, txSum, txDelta,
      (by norm_num : ¬(500 : ℚ) ≤ 0), (by norm_num : ¬(200 : ℚ) ≤ 0),
      (by norm_num : ¬(500 : ℚ) < 200)]
    norm_num)

/-- C3: the claim says a failed persistence write leaves in-memory state
unchanged.  In the source the handler mutates the in-memory user before
calling `saveAll`, with no rollback: depositing 100 into account `A`
(balance 0) while the save throws reports the storage error, yet the
in-memory balance is already 100 and the transaction was appended. -/
theorem c3_failed_save_keeps_mutation :
    (deposit stA false "A" (.jnum (.num 100))).1 = .error .storageUnavailable ∧
    ((deposit stA false "A" (.jnum (.num 100))).2.users "A").map User.balance
      = some (.num 100) ∧
    ((deposit stA false "A" (.jnum (.num 100))).2.users "A").map
      (fun u => u.txs.length) = some 1 ∧
    (stA.users "A").map User.balance = some (.num 0) := by
  simp [deposit, stA, emptyState, upd, JsVal.truthy, JsVal.toNumber,
    JsNum.truthy, JsNum.isNaN, JsNum.le, JsNum.add, jsOr0,
    (by norm_num : ¬(100 : ℚ) ≤ 0), (by norm_num : (100 : ℚ) ≠ 0)]

/-- C4 counterexample: the claim says a non-finite (infinite) amount is
rejected with InvalidAmount.  The validation is only `isNaN(a) || a <= 0`,
so the amount string "Infinity" (truthy, converting to Infinity) passes it
and the deposit succeeds, setting the balance to Infinity. -/
theorem c4_counterexample :
    (deposit stA true "A" (.jstr "Infinity")).1 = .ok .inf := by
  simp [deposit, stA, emptyState, upd, JsVal.truthy, JsVal.toNumber, strToNum,
    JsNum.isNaN, JsNum.le, JsNum.add, jsOr0, JsNum.truthy]

/-- C4 (amended): for an existing account, deposit fails with InvalidAmount
exactly when the supplied amount is truthy and converts to NaN or to a
non-positive number, and such a failure leaves the state unchanged; a zero
(falsy) amount is instead rejected as missing fields, and a positive
infinite amount is not rejected at all — the validation does not check
finiteness. -/
theorem c4_deposit_validation (st : ServerState) (phone : String) (u : User)
    (v : JsVal) (hp : phone ≠ "") (hu : st.users phone = some u) :
    ((deposit st true phone v).1 = .error .invalidAmount ↔
      (v.truthy = true ∧
        ((v.toNumber).isNaN = true ∨ (v.toNumber).le (.num 0) = true))) ∧
    ((deposit st true phone v).1 = .error .invalidAmount →
      (deposit st true phone v).2 = st) ∧
    (deposit st true phone (.jnum (.num 0))).1 = .error .missingFields ∧
    (deposit st true phone (.jstr "Infinity")).1
      = .ok ((jsOr0 u.balance).add .inf) := by
  refine ⟨?_, ?_, ?_, ?_⟩
  · cases htv : v.truthy with
    | false => simp [deposit, hp, htv]
    | true =>
      by_cases hc : (v.toNumber).isNaN = true ∨ (v.toNumber).le (.num 0) = true
      · simp [deposit, hp, htv, hu, hc]
      · simp [deposit, hp, htv, hu, hc]
  · cases htv : v.truthy with
    | false =>
      intro hh
      simp [deposit, hp, htv] at hh
    | true =>
      by_cases hc : (v.toNumber).isNaN = true ∨ (v.toNumber).le (.num 0) = true
      · intro hh
        simp [deposit, hp, htv, hu, hc]
      · intro hh
        simp [deposit, hp, htv, hu, hc] at hh
  · simp [deposit, JsVal.truthy, JsNum.truthy]
  · simp [deposit, hp, hu, JsVal.truthy, JsVal.toNumber, strToNum,
      JsNum.isNaN, JsNum.le]

/-- Witness for C4: a deposit of -3 into account `A` is rejected with
InvalidAmount. -/
theorem c4_witness :
    (deposit stA true "A" (.jnum (.num (-3)))).1 = .error .invalidAmount :=
  ((c4_deposit_validation stA "A" ⟨"A", "n", .num 0, [], none⟩
      (.jnum (.num (-3))) (by decide) (by simp [stA, upd, emptyState])).1).mpr
    ⟨by norm_num [JsVal.truthy, JsNum.truthy],
     Or.inr (by norm_num [JsVal.toNumber, JsNum.le])⟩

/-- C5 counterexample: the claim says createPayment fails with InvalidAmount
exactly when the amount is non-numeric or below 250.  Amount 0 is below the
minimum, yet the handler's falsy-field check fires first and rejects it as
missing fields, a different error than InvalidAmount. -/
theorem c5_counterexample :
    (createPayment stA true "p1" "A" (.jnum (.num 0)) "X").1
      = .error .missingFields ∧
    Err.missingFields ≠ Err.invalidAmount := by
  simp [createPayment, JsVal.truthy, JsNum.truthy]

/-- C5 (amended): for an existing account and nonempty `payTo`,
createPayment fails with InvalidAmount exactly when the supplied amount is
truthy and converts to NaN or to a number below 250 (a zero, falsy, amount
is instead rejected as missing fields before validation), and such a
failure leaves the state unchanged; amount 249.99 fails with InvalidAmount
and amount 250.00 succeeds, returning the payment id of a new payment in
status PENDING. -/
theorem c5_create_validation (st : ServerState) (pid phone payTo : String)
    (u : User) (v : JsVal) (hp : phone ≠ "") (hto : payTo ≠ "")
    (hu : st.users phone = some u) :
    ((createPayment st true pid phone v payTo).1 = .error .invalidAmount ↔
      (v.truthy = true ∧
        ((v.toNumber).isNaN = true ∨ (v.toNumber).lt (.num 250) = true))) ∧
    ((createPayment st true pid phone v payTo).1 = .error .invalidAmount →
      (createPayment st true pid phone v payTo).2 = st) ∧
    (createPayment st true pid phone (.jnum (.num (24999 / 100))) payTo).1
      = .error .invalidAmount ∧
    (createPayment st true pid phone (.jnum (.num 250)) payTo).1 = .ok pid ∧
    (createPayment st true pid phone (.jnum (.num 250)) payTo).2.payments pid
      = some ⟨pid, phone, payTo, .num 250, .PENDING⟩ := by
  refine ⟨?_, ?_, ?_, ?_, ?_⟩
  · cases htv : v.truthy with
    | false => simp [createPayment, hp, hto, htv]
    | true =>
      by_cases hc : (v.toNumber).isNaN = true ∨ (v.toNumber).lt (.num 250) = true
      · simp [createPayment, hp, hto, htv, hu, hc]
      · simp [createPayment, hp, hto, htv, hu, hc]
  · cases htv : v.truthy with
    | false =>
      intro hh
      simp [createPayment, hp, hto, htv] at hh
    | true =>
      by_cases hc : (v.toNumber).isNaN = true ∨ (v.toNumber).lt (.num 250) = true
      · intro hh
        simp [createPayment, hp, hto, htv, hu, hc]
      · intro hh
        simp [createPayment, hp, hto, htv, hu, hc] at hh
  · simp [createPayment, hp, hto, hu, JsVal.truthy, JsVal.toNumber,
      JsNum.truthy, JsNum.isNaN, JsNum.lt,
      (by norm_num : (24999 / 100 : ℚ) ≠ 0),
      (by norm_num : (24999 / 100 : ℚ) < 250)]
  · simp [createPayment, hp, hto, hu, JsVal.truthy, JsVal.toNumber,
      JsNum.truthy, JsNum.isNaN, JsNum.lt,
      (by norm_num : (250 : ℚ) ≠ 0), (by norm_num : ¬(250 : ℚ) < 250)]
  · simp [createPayment, hp, hto, hu, upd, JsVal.truthy, JsVal.toNumber,
      JsNum.truthy, JsNum.isNaN, JsNum.lt,
      (by norm_num : (250 : ℚ) ≠ 0), (by norm_num : ¬(250 : ℚ) < 250)]

/-- Witness for C5: in state `stA`, createPayment with the NaN-converting
string "abc" fails with InvalidAmount. -/
theorem c5_witness :
    (createPayment stA true "p1" "A" (.jstr "abc") "X").1
      = .error .invalidAmount :=
  ((c5_create_validation stA "p1" "A" "X" ⟨"A", "n", .num 0, [], none⟩
      (.jstr "abc") (by decide) (by decide) (by simp [stA, upd, emptyState])).1).mpr
    ⟨by simp [JsVal.truthy],
     Or.inl (by simp [JsVal.toNumber, strToNum, parseDec, splitDot, JsNum.isNaN])⟩

/-- C6: for an existing account with nonnegative finite balance, a withdraw
whose amount converts to a number strictly greater than the balance fails
with InsufficientBalance and leaves the entire state unchanged. -/
theorem c6_insufficient_balance (st : ServerState) (phone : String) (u : User)
    (q : ℚ) (v : JsVal) (hp : phone ≠ "") (hu : st.users phone = some u)
    (hb : u.balance = .num q) (hq : 0 ≤ q) (ht : v.truthy = true)
    (hgt : (v.toNumber).gt (.num q) = true) :
    (withdraw st true phone v).1 = .error .insufficientBalance ∧
    (withdraw st true phone v).2 = st := by
  cases hv : v.toNumber with
  | nan => rw [hv] at hgt; simp [JsNum.gt, JsNum.lt] at hgt
  | ninf => rw [hv] at hgt; simp [JsNum.gt, JsNum.lt] at hgt
  | inf =>
    simp [withdraw, hp, ht, hu, hb, hv, JsNum.isNaN, JsNum.le, JsNum.gt,
      JsNum.lt]
  | num r =>
    rw [hv] at hgt
    have hqr : q < r := by simpa [JsNum.gt, JsNum.lt] using hgt
    have h1 : ¬ r ≤ 0 := by linarith
    simp [withdraw, hp, ht, hu, hb, hv, JsNum.isNaN, JsNum.le, JsNum.gt,
      JsNum.lt, h1, hqr]

/-- Witness for C6: withdrawing 150 from account `A` with balance 100 fails
with InsufficientBalance and changes nothing. -/
theorem c6_witness :
    (withdraw stB true "A" (.jnum (.num 150))).1 = .error .insufficientBalance ∧
    (withdraw stB true "A" (.jnum (.num 150))).2 = stB :=
  c6_insufficient_balance stB "A" ⟨"A", "n", .num 100, [], none⟩ 100
    (.jnum (.num 150)) (by decide) (by simp [stB, upd, emptyState]) rfl
    (by norm_num) (by norm_num [JsVal.truthy, JsNum.truthy])
    (by norm_num [JsVal.toNumber, JsNum.gt, JsNum.lt])

/-- C7: on a successful settlement of a payment with finite principal `s`
against a user with finite balance `b`, the payment becomes SUCCESS, the
credited amount is exactly `round2HalfUp (s * 1.10)` (rounding to 2 decimal
places, half-up), the balance increases by exactly that amount, and an
invest transaction is appended whose meta records the principal and
`bonus = credited - principal`. -/
theorem c7_settlement_math (st : ServerState) (pid : String) (p : Payment)
    (u : User) (s b : ℚ) (hp : st.payments pid = some p)
    (ha : p.amount = .num s) (hu : st.users p.phone = some u)
    (hb : u.balance = .num b) :
    (runSettlement st true pid).payments pid
      = some { p with status := .SUCCESS } ∧
    (runSettlement st true pid).users p.phone = some
      { u with balance := .num (b + round2HalfUp (s * (11 / 10))),
               txs := u.txs ++ [⟨.invest, .num (round2HalfUp (s * (11 / 10))),
                 .investMeta (.num s)
                   (.num (round2HalfUp (s * (11 / 10)) - s))⟩] } := by
  have hcred : (((JsNum.num s).mul (.num (11 / 10))).mul (.num 100)).jsRound.div100
      = .num (round2HalfUp (s * (11 / 10))) := credited_eq s
  simp [runSettlement, hp, hu, ha, hb, hcred, upd, jsOr0_num, JsNum.sub,
    JsNum.neg, JsNum.add, sub_eq_add_neg]

/-- Witness for C7: settling the PENDING payment of principal 1000 in
`stPending` credits exactly 1100 to account `A` (balance 0), recording
principal 1000 and bonus 100. -/
theorem c7_witness :
    (runSettlement stPending true "p1").users "A" = some
      ⟨"A", "n", .num 1100,
       [⟨.invest, .num 1100, .investMeta (.num 1000) (.num 100)⟩], none⟩ := by
  have h := c7_settlement_math stPending "p1" ⟨"p1", "A", "X", .num 1000, .PENDING⟩
    ⟨"A", "n", .num 0, [], none⟩ 1000 0 (by simp [stPending, upd, emptyState]) rfl
    (by simp [stPending, upd, emptyState]) rfl
  have h2 := h.2
  norm_num [round2HalfUp, Int.floor_eq_iff] at h2
  simpa using h2

/-- C8: for an existing payment, cancellation succeeds exactly when its
current status is PENDING (then setting it to CANCELLED); for any other
current status — including an already-CANCELLED or already-resolved
payment — it fails with `cannot cancel` and leaves the state unchanged. -/
theorem c8_cancel_iff_pending (st : ServerState) (pid : String) (p : Payment)
    (hp : st.payments pid = some p) :
    ((cancelPayment st true pid).1 = .ok () ↔ p.status = .PENDING) ∧
    (p.status = .PENDING →
      (cancelPayment st true pid).2.payments pid
        = some { p with status := .CANCELLED }) ∧
    (p.status ≠ .PENDING →
      (cancelPayment st true pid).1 = .error .cannotCancel ∧
      (cancelPayment st true pid).2 = st) := by
  by_cases hs : p.status = .PENDING
  · simp [cancelPayment, hp, hs, upd]
  · simp [cancelPayment, hp, hs]

/-- Witness for C8: cancelling the already-CANCELLED payment `p1` (a second
cancel) fails with `cannot cancel` and changes nothing. -/
theorem c8_witness :
    (cancelPayment stCancelled true "p1").1 = .error .cannotCancel ∧
    (cancelPayment stCancelled true "p1").2 = stCancelled :=
  (c8_cancel_iff_pending stCancelled "p1" ⟨"p1", "A", "X", .num 250, .CANCELLED⟩
    (by simp [stCancelled, upd, emptyState])).2.2 (by simp)

/-- C9: for an existing account with positive finite balance `q`, a
withdraw of exactly `q` succeeds — the insufficient-balance check is
strict — returning new balance 0 and appending the withdraw transaction. -/
theorem c9_withdraw_full_balance (st : ServerState) (phone : String)
    (u : User) (q : ℚ) (hp : phone ≠ "") (hu : st.users phone = some u)
    (hb : u.balance = .num q) (hq : 0 < q) :
    (withdraw st true phone (.jnum (.num q))).1 = .ok (.num 0) ∧
    (withdraw st true phone (.jnum (.num q))).2.users phone = some
      { u with balance := .num 0,
               txs := u.txs ++ [⟨.withdraw, .num q,
                 .note "Manual withdrawal"⟩] } := by
  have h0 : ¬ q = 0 := by linarith
  have h1 : ¬ q ≤ 0 := by linarith
  have h2 : ¬ q < q := lt_irrefl q
  have h3 : q + -q = 0 := by ring
  simp [withdraw, hp, hu, hb, h0, h1, h2, h3, JsVal.truthy, JsVal.toNumber,
    JsNum.truthy, JsNum.isNaN, JsNum.le, JsNum.gt, JsNum.lt, jsOr0_num,
    JsNum.sub, JsNum.neg, JsNum.add, upd]

/-- Witness for C9: withdrawing 100 from account `A` with balance 100
succeeds with new balance 0. -/
theorem c9_witness :
    (withdraw stB true "A" (.jnum (.num 100))).1 = .ok (.num 0) ∧
    (withdraw stB true "A" (.jnum (.num 100))).2.users "A" = some
      ⟨"A", "n", .num 0,
       [⟨.withdraw, .num 100, .note "Manual withdrawal"⟩], none⟩ := by
  have h := c9_withdraw_full_balance stB "A" ⟨"A", "n", .num 100, [], none⟩ 100
    (by decide) (by simp [stB, upd, emptyState]) rfl (by norm_num)
  simpa using h

/-- C10: createPayment with a valid amount never reads or debits the
account: it succeeds for any amount passing validation regardless of the
balance, leaves the users map entirely unchanged, and only adds the new
PENDING payment under the fresh id. -/
theorem c10_create_payment_frame (st : ServerState) (pid phone payTo : String)
    (u : User) (v : JsVal) (hp : phone ≠ "") (hto : payTo ≠ "")
    (hu : st.users phone = some u) (ht : v.truthy = true)
    (hn : (v.toNumber).isNaN = false)
    (hmin : (v.toNumber).lt (.num 250) = false) :
    (createPayment st true pid phone v payTo).1 = .ok pid ∧
    (createPayment st true pid phone v payTo).2.users = st.users ∧
    (createPayment st true pid phone v payTo).2.payments pid
      = some ⟨pid, phone, payTo, v.toNumber, .PENDING⟩ ∧
    ∀ pid', pid' ≠ pid →
      (createPayment st true pid phone v payTo).2.payments pid'
        = st.payments pid' := by
  simp [createPayment, hp, hto, ht, hu, hn, hmin, upd]
  intro pid' hne heq
  exact absurd heq hne

/-- Witness for C10: in `stA` account `A` has balance 0, yet a payment of
250 (far above the balance) is accepted, the users map is untouched and
payment `p1` is stored PENDING. -/
theorem c10_witness :
    (createPayment stA true "p1" "A" (.jnum (.num 250)) "X").1 = .ok "p1" ∧
    (createPayment stA true "p1" "A" (.jnum (.num 250)) "X").2.users
      = stA.users ∧
    (createPayment stA true "p1" "A" (.jnum (.num 250)) "X").2.payments "p1"
      = some ⟨"p1", "A", "X", .num 250, .PENDING⟩ ∧
    ∀ pid', pid' ≠ "p1" →
      (createPayment stA true "p1" "A" (.jnum (.num 250)) "X").2.payments pid'
        = stA.payments pid' :=
  c10_create_payment_frame stA "p1" "A" "X" ⟨"A", "n", .num 0, [], none⟩
    (.jnum (.num 250)) (by decide) (by decide) (by simp [stA, upd, emptyState])
    (by norm_num [JsVal.truthy, JsNum.truthy]) rfl
    (by simp [JsVal.toNumber, JsNum.lt, (by norm_num : ¬(250 : ℚ) < 250)])

end XInvestment
